import Mathlib

/-!
Verification of the record-identity and validation module of the
basenames tool (`basenames-sepolia-registrar/lib/verify-basename-records.ts`
and the validation utilities it imports).

The TypeScript source is shallowly embedded: byte strings become `List Nat`
(one entry per byte), addresses become their hex strings, the external
keccak-256 primitive and the external blockchain reads become parameters
(a `Chain` structure), and `async` functions that never reject become total
Lean functions.
-/

/-- Byte strings (each entry a byte value). -/
abbrev Bytes := List Nat

/-- Ethereum addresses are kept as the hex strings the client library hands
back (`0x`-prefixed, checksummed); the code only ever compares them for
equality against the zero-address literal. -/
abbrev Address := String

/-- The zero address literal the source compares against. -/
def zeroAddress : Address := "0x0000000000000000000000000000000000000000"

/-- UTF-8 encoding of a single code point (standard 1-4 byte encoding,
as performed by viem's `toBytes` on a string). -/
def utf8Char (c : Char) : Bytes :=
  let n := c.toNat
  if n < 0x80 then [n]
  else if n < 0x800 then [0xC0 + n / 64, 0x80 + n % 64]
  else if n < 0x10000 then [0xE0 + n / 4096, 0x80 + (n / 64) % 64, 0x80 + n % 64]
  else [0xF0 + n / 262144, 0x80 + (n / 4096) % 64, 0x80 + (n / 64) % 64, 0x80 + n % 64]

/-- viem `toBytes` on a string: the UTF-8 bytes of the string. -/
def toBytes (s : String) : Bytes := (s.data.map utf8Char).flatten

/-- viem `encodePacked(['bytes32','bytes32'], [a, b])`: plain byte
concatenation of the two 32-byte values. -/
def encodePacked (a b : Bytes) : Bytes := a ++ b

/-- Function `calculateSubnameNode` from `verify-basename-records.ts` (the identical
copy in `query-basenames.ts` included), parameterised by the external
keccak-256 primitive:

```ts
const labelHash = keccak256(toBytes(label))
return keccak256(encodePacked(['bytes32', 'bytes32'], [rootNode, labelHash]))
``` -/
def calculateSubnameNode (keccak256 : Bytes → Bytes) (label : String) (rootNode : Bytes) : Bytes :=
  let labelHash := keccak256 (toBytes label)
  keccak256 (encodePacked rootNode labelHash)

/-- JS `fullName.split('.')` on the character list (split on every dot,
keeping empty segments, never returning an empty list). -/
def splitOnDot : List Char → List (List Char)
  | [] => [[]]
  | c :: cs =>
    let rest := splitOnDot cs
    if c = '.' then [] :: rest
    else
      match rest with
      | [] => [[c]]
      | r :: rs => (c :: r) :: rs

/-- Function `extractLabel` from the source:

```ts
const parts = fullName.split('.')
if (parts.length === 0) return fullName
return parts[0]
``` -/
def extractLabel (fullName : String) : String :=
  let parts := splitOnDot fullName.data
  match parts with
  | [] => fullName
  | p :: _ => String.mk p

/-- The hierarchical name hash (viem `namehash`), used once at module load
to derive the constant `PARENT_NODE = namehash('basetest.eth')`; labels are
listed leaf first. -/
def namehashAux (keccak256 : Bytes → Bytes) : List String → Bytes
  | [] => List.replicate 32 0
  | l :: rest => keccak256 (namehashAux keccak256 rest ++ keccak256 (toBytes l))

/-- Constant `PARENT_NODE = namehash('basetest.eth')`, parameterised by keccak-256. -/
def PARENT_NODE (keccak256 : Bytes → Bytes) : Bytes :=
  namehashAux keccak256 ["basetest", "eth"]

/-- C1: the node derivation is `hash(parentNode || hash(utf8 label))` with
32-byte byte concatenation: whenever the hash primitive produces 32-byte
outputs and the parent node is 32 bytes, the packed preimage is 64 bytes,
the result is the hash of parent-then-label-hash and is itself 32 bytes,
and the function is deterministic (equal inputs give equal output). -/
theorem calculateSubnameNode_spec (keccak256 : Bytes → Bytes)
    (hlen : ∀ bs : Bytes, (keccak256 bs).length = 32)
    (label : String) (parentNode : Bytes) (hP : parentNode.length = 32) :
    calculateSubnameNode keccak256 label parentNode
      = keccak256 (parentNode ++ keccak256 (toBytes label))
    ∧ (encodePacked parentNode (keccak256 (toBytes label))).length = 64
    ∧ (calculateSubnameNode keccak256 label parentNode).length = 32
    ∧ calculateSubnameNode keccak256 label parentNode
      = calculateSubnameNode keccak256 label parentNode := by
  refine ⟨rfl, ?_, hlen _, rfl⟩
  simp [encodePacked, hP, hlen]

/-- Witness for C1 at a concrete hash primitive, label and parent node. -/
theorem calculateSubnameNode_spec_witness :
    (∀ bs : Bytes, ((fun _ => List.replicate 32 0 : Bytes → Bytes) bs).length = 32)
    ∧ (List.replicate 32 1 : Bytes).length = 32
    ∧ (calculateSubnameNode (fun _ => List.replicate 32 0) "alice" (List.replicate 32 1)
        = (fun _ => List.replicate 32 0 : Bytes → Bytes)
            (List.replicate 32 1 ++ (fun _ => List.replicate 32 0 : Bytes → Bytes) (toBytes "alice"))
      ∧ (encodePacked (List.replicate 32 1)
          ((fun _ => List.replicate 32 0 : Bytes → Bytes) (toBytes "alice"))).length = 64
      ∧ (calculateSubnameNode (fun _ => List.replicate 32 0) "alice" (List.replicate 32 1)).length = 32
      ∧ calculateSubnameNode (fun _ => List.replicate 32 0) "alice" (List.replicate 32 1)
        = calculateSubnameNode (fun _ => List.replicate 32 0) "alice" (List.replicate 32 1)) :=
  ⟨fun _ => by simp, by simp,
    calculateSubnameNode_spec (fun _ => List.replicate 32 0) (fun _ => by simp)
      "alice" (List.replicate 32 1) (by simp)⟩

/-! ## Record schema (`validate-records.ts`) -/

/-- The ten standard ENSIP-5 global keys. -/
def GLOBAL_KEYS : List String :=
  ["avatar", "description", "display", "email", "keywords",
   "mail", "notice", "location", "phone", "url"]

/-- The six standard ENSIP-5 service keys. -/
def SERVICE_KEYS : List String :=
  ["com.github", "com.peepeth", "com.linkedin", "com.twitter",
   "io.keybase", "org.telegram"]

/-- The address record key. -/
def ADDRESS_KEY : String := "addr"

/-- All 17 standard keys, in source order: `addr`, then the global keys,
then the service keys. -/
def STANDARD_ENS_KEYS : List String :=
  ADDRESS_KEY :: (GLOBAL_KEYS ++ SERVICE_KEYS)

/-- The characters JavaScript treats as whitespace (`String.prototype.trim`
and the regex `\s` class): ASCII whitespace, NBSP, the Unicode space
separators, the line separators and the BOM. -/
def isJsWhitespace (c : Char) : Bool :=
  c.toNat = 9 ∨ c.toNat = 10 ∨ c.toNat = 11 ∨ c.toNat = 12 ∨ c.toNat = 13 ∨
  c.toNat = 32 ∨ c.toNat = 0xA0 ∨ c.toNat = 0x1680 ∨
  (0x2000 ≤ c.toNat ∧ c.toNat ≤ 0x200A) ∨
  c.toNat = 0x2028 ∨ c.toNat = 0x2029 ∨ c.toNat = 0x202F ∨
  c.toNat = 0x205F ∨ c.toNat = 0x3000 ∨ c.toNat = 0xFEFF

/-- Drop JS whitespace from both ends of a character list. -/
def jsTrimList (l : List Char) : List Char :=
  ((l.dropWhile isJsWhitespace).reverse.dropWhile isJsWhitespace).reverse

/-- JS `value.trim()`. -/
def jsTrim (s : String) : String := String.mk (jsTrimList s.data)

/-- JS regex line terminators (the characters `.` does not match). -/
def isLineTerminator (c : Char) : Bool :=
  c.toNat = 10 ∨ c.toNat = 13 ∨ c.toNat = 0x2028 ∨ c.toNat = 0x2029

/-- A character admissible in the email regex's `[^\s@]` class. -/
def emailAtomChar (c : Char) : Bool := !isJsWhitespace c && c ≠ '@'

/-- Whether a character list has a `.` that is neither its first nor its
last element. -/
def hasInteriorDot (l : List Char) : Bool := l.tail.dropLast.contains '.'

/-- Test of `/^[^\s@]+@[^\s@]+\.[^\s@]+$/`: exactly one `@`, a nonempty
atom before it, and after it a nonempty atom sequence containing a dot that
is neither directly after the `@` nor at the end. -/
def emailTest (s : String) : Bool :=
  let cs := s.data
  let a := cs.takeWhile (· ≠ '@')
  let b := (cs.dropWhile (· ≠ '@')).tail
  cs.contains '@' && !b.contains '@' &&
    a.all emailAtomChar && b.all emailAtomChar &&
    !a.isEmpty && hasInteriorDot b

/-- Test of `/^\+[1-9]\d{1,14}$/`. -/
def phoneTest (s : String) : Bool :=
  match s.data with
  | c :: d :: ds =>
    c == '+' && (('1' ≤ d && d ≤ '9') && ds.all Char.isDigit
      && (1 ≤ ds.length && ds.length ≤ 14))
  | _ => false

/-- Test of `/^https?:\/\/.+/i`: after ASCII-lowercasing, the string is
`http://` or `https://` followed by at least one character, the first of
which is not a line terminator (the `i` flag only folds ASCII letters,
since without the `u` flag a non-ASCII character never canonicalises to an
ASCII pattern character). -/
def urlTest (s : String) : Bool :=
  match s.data.map Char.toLower with
  | 'h' :: 't' :: 't' :: 'p' :: ':' :: '/' :: '/' :: c :: _ => !isLineTerminator c
  | 'h' :: 't' :: 't' :: 'p' :: 's' :: ':' :: '/' :: '/' :: c :: _ => !isLineTerminator c
  | _ => false

/-- A hexadecimal character, the `[a-fA-F0-9]` class. -/
def isHexChar (c : Char) : Bool :=
  c.isDigit || ('a' ≤ c && c ≤ 'f') || ('A' ≤ c && c ≤ 'F')

/-- Test of `/^0x[a-fA-F0-9]{40}$/`. -/
def addrTest (s : String) : Bool :=
  match s.data with
  | '0' :: 'x' :: hex => hex.all isHexChar && hex.length = 40
  | _ => false

/-- A character in the `[a-zA-Z0-9_]` class. -/
def isWordChar (c : Char) : Bool := c.isAlphanum || c = '_'

/-- Test of `/^[a-zA-Z0-9_]+$/` (the `com.twitter` and `org.telegram`
rules). -/
def usernameTest (s : String) : Bool :=
  !s.data.isEmpty && s.data.all isWordChar

/-- Test of `/^[a-zA-Z0-9]([a-zA-Z0-9-])*$/` (the `com.github` rule). -/
def githubTest (s : String) : Bool :=
  match s.data with
  | c :: rest => c.isAlphanum && rest.all (fun d => d.isAlphanum || d = '-')
  | [] => false

/-- Own entries of the `VALIDATION_RULES` object literal: pattern and
error message per key warranting validation; `none` for keys the literal
does not declare. (The JS property access `VALIDATION_RULES[key]` is more
than this table: it also traverses the prototype chain, see
`validationRuleAccess`.) -/
def VALIDATION_RULES (key : String) : Option ((String → Bool) × String) :=
  if key = "email" then
    some (emailTest, "Invalid email format. Must be a valid email address.")
  else if key = "phone" then
    some (phoneTest, "Phone must be in E.164 format (e.g., +1234567890). Must start with + and country code.")
  else if key = "url" then
    some (urlTest, "URL must start with http:// or https://")
  else if key = "avatar" then
    some (urlTest, "Avatar URL must start with http:// or https://")
  else if key = "addr" then
    some (addrTest, "Invalid Ethereum address format. Must be 0x followed by 40 hexadecimal characters.")
  else if key = "com.twitter" then
    some (usernameTest, "Twitter username must contain only letters, numbers, and underscores (no @ symbol, no spaces).")
  else if key = "org.telegram" then
    some (usernameTest, "Telegram username must contain only letters, numbers, and underscores (no @ symbol, no spaces).")
  else if key = "com.github" then
    some (githubTest, "GitHub username must start with alphanumeric character and can contain hyphens (no spaces, no @ symbol).")
  else none

/-- Property names a plain JS object inherits from `Object.prototype`:
for these keys `VALIDATION_RULES[key]` yields a truthy inherited value
(a function, or the prototype object for `__proto__`) that is not a rule
object. -/
def objectPrototypeKeys : List String :=
  ["constructor", "hasOwnProperty", "isPrototypeOf", "propertyIsEnumerable",
   "toLocaleString", "toString", "valueOf", "__proto__",
   "__defineGetter__", "__defineSetter__", "__lookupGetter__", "__lookupSetter__"]

/-- Result of the JS property access `VALIDATION_RULES[key]`: `undefined`,
an own property carrying a validation rule, or a truthy value inherited
from `Object.prototype` (never a rule object). -/
inductive JsPropAccess
  | notFound
  | ownRule (r : (String → Bool) × String)
  | inherited

/-- The property access `VALIDATION_RULES[key]` as JS performs it: own
properties first, then the `Object.prototype` members, else `undefined`. -/
def validationRuleAccess (key : String) : JsPropAccess :=
  match VALIDATION_RULES key with
  | some r => .ownRule r
  | none => if objectPrototypeKeys.contains key then .inherited else .notFound

/-- Constant `FREE_TEXT_FIELDS`: the nine keys exempt from validation. -/
def FREE_TEXT_FIELDS : List String :=
  ["description", "display", "keywords", "mail", "notice", "location",
   "com.peepeth", "com.linkedin", "io.keybase"]

/-- Outcome of `validateRecord`: a `valid` flag and an optional error
message. -/
structure ValidationOutcome where
  valid : Bool
  errMsg : Option String
deriving DecidableEq

/-- Function `validateRecord` from `validate-records.ts`:

```ts
if (!value || value.trim() === '') return { valid: true }
if (FREE_TEXT_FIELDS.includes(key)) return { valid: true }
const rule = VALIDATION_RULES[key]
if (!rule) return { valid: true }
if (rule.pattern.test(value.trim())) return { valid: true }
else return { valid: false, error: rule.error }
```

When `VALIDATION_RULES[key]` finds a truthy value inherited from
`Object.prototype` (for example `key = "constructor"`), the `!rule` guard
does not fire and `rule.pattern.test` is a property read on `undefined`:
the call throws a TypeError, modelled as `Except.error`. -/
def validateRecord (key : String) (value : String) : Except String ValidationOutcome :=
  if value = "" ∨ jsTrim value = "" then .ok ⟨true, none⟩
  else if FREE_TEXT_FIELDS.contains key then .ok ⟨true, none⟩
  else
    match validationRuleAccess key with
    | .notFound => .ok ⟨true, none⟩
    | .inherited => .error "TypeError: Cannot read properties of undefined (reading test)"
    | .ownRule rule =>
      .ok (if rule.1 (jsTrim value) then ⟨true, none⟩ else ⟨false, some rule.2⟩)

/-- Error-message accumulation of `validateRecords`, in entry order; a
TypeError thrown by any entry propagates. -/
def collectValidationErrors : List (String × String) → Except String (List (String × String))
  | [] => .ok []
  | kv :: rest =>
    match validateRecord kv.1 kv.2 with
    | .error e => .error e
    | .ok r =>
      match collectValidationErrors rest with
      | .error e => .error e
      | .ok es =>
        match r with
        | ⟨false, some e⟩ => .ok ((kv.1, e) :: es)
        | _ => .ok es

/-- Function `validateRecords`: apply `validateRecord` to every entry,
collecting error messages; valid iff no errors; an uncaught TypeError from
any entry propagates. -/
def validateRecords (records : List (String × String)) :
    Except String (Bool × List (String × String)) :=
  (collectValidationErrors records).map (fun errors => (errors.isEmpty, errors))

/-- The four display categories. -/
inductive RecordCategory
  | profile
  | contact
  | social
  | other
deriving DecidableEq

/-- JS `key.startsWith(p)`. -/
def strStartsWith (key p : String) : Bool := p.data.isPrefixOf key.data

/-- Function `getRecordCategory` from `validate-records.ts`. -/
def getRecordCategory (key : String) : RecordCategory :=
  if key = "avatar" ∨ key = "display" ∨ key = "keywords" then .profile
  else if key = "email" ∨ key = "phone" ∨ key = "location" then .contact
  else if strStartsWith key "com." ∨ strStartsWith key "org." ∨ strStartsWith key "io." then .social
  else .other

/-- Function `getRecordsByCategory`: the 16 non-`addr` keys bucketed by category,
preserving the canonical order. -/
def getRecordsByCategory : List String × List String × List String × List String :=
  let keys := STANDARD_ENS_KEYS.filter (· ≠ ADDRESS_KEY)
  (keys.filter (fun k => getRecordCategory k == .profile),
   keys.filter (fun k => getRecordCategory k == .contact),
   keys.filter (fun k => getRecordCategory k == .social),
   keys.filter (fun k => getRecordCategory k == .other))

/-! ## Verification aggregation (`verify-basename-records.ts`) -/

/-- The external collaborators of `verifyBasenameRecords`: the keccak-256
primitive and name normalisation from viem, and the four read-only contract
calls issued through the public client. A call that rejects is an
`Except.error` carrying its message. -/
structure Chain where
  keccak : Bytes → Bytes
  normalize : String → String
  ownerOf : Bytes → Except String Address
  resolverOf : Bytes → Except String Address
  addrOf : Bytes → Except String Address
  textOf : Bytes → String → Except String String

/-- A record's verification status. -/
inductive RecordStatus
  | set
  | empty
  | error
deriving DecidableEq

/-- One record's result: status, value, optional error message. -/
structure RecordResult where
  status : RecordStatus
  value : Option String
  errMsg : Option String
deriving DecidableEq

/-- The summary block of a `VerificationResult`. -/
structure Summary where
  set : Nat
  empty : Nat
  error : Nat
  total : Nat
  percentage : Nat
deriving DecidableEq

/-- The full result of `verifyBasenameRecords`. The `records` object is an
association list in insertion order (the 16 text keys, then `addr`). -/
structure VerificationResult where
  basename : String
  normalizedName : String
  node : Bytes
  owner : Option Address
  resolver : Option Address
  records : List (String × RecordResult)
  addressRecord : Option Address
  summary : Summary
deriving DecidableEq

/-- Model of `Math.round((set / total) * 100)` on the exact rational: floor of
`set/total*100 + 1/2` (JS `Math.round` rounds half toward positive
infinity; at `total = 17` no input lands on a floating-point tie, so the
exact rational agrees with the double computation on every reachable
value). -/
def roundPercentage (set total : Nat) : Nat := (200 * set + total) / (2 * total)

/-- The 16 text-record keys: `STANDARD_ENS_KEYS` with `addr` filtered out. -/
def textRecordKeys : List String := STANDARD_ENS_KEYS.filter (· ≠ ADDRESS_KEY)

/-- One iteration of the text-record loop: read `text(node, key)`; a
truthy value gives `set`, an empty one `empty`, a rejected call `error`
with its message. -/
def queryTextRecord (env : Chain) (node : Bytes) (key : String) : RecordResult :=
  match env.textOf node key with
  | .ok value => if value ≠ "" then ⟨.set, some value, none⟩ else ⟨.empty, none, none⟩
  | .error e => ⟨.error, none, some e⟩

/-- The `records` association list built in `verifyBasenameRecords` once a
non-zero resolver is known: text records in key order, then the `addr`
entry derived from the `addressRecord`. -/
def buildRecords (env : Chain) (node : Bytes) (addressRecord : Option Address) :
    List (String × RecordResult) :=
  textRecordKeys.map (fun key => (key, queryTextRecord env node key)) ++
    [(ADDRESS_KEY,
      match addressRecord with
      | some a => ⟨.set, some a, none⟩
      | none => ⟨.empty, none, none⟩)]

/-- The all-empty `records` object of `createEmptyResult` and
`createResultWithOwner`. -/
def emptyRecords : List (String × RecordResult) :=
  STANDARD_ENS_KEYS.map (fun key => (key, ⟨.empty, none, none⟩))

/-- Function `createEmptyResult`: the result returned when the name does not exist
or the registry query failed. -/
def createEmptyResult (normalizedName : String) (node : Bytes) : VerificationResult :=
  { basename := normalizedName
    normalizedName := normalizedName
    node := node
    owner := none
    resolver := none
    records := emptyRecords
    addressRecord := none
    summary :=
      { set := 0
        empty := STANDARD_ENS_KEYS.length
        error := 0
        total := STANDARD_ENS_KEYS.length
        percentage := 0 } }

/-- Function `createResultWithOwner`: the result returned when the name exists but
no resolver is set. -/
def createResultWithOwner (normalizedName : String) (node : Bytes)
    (owner : Address) (resolver : Option Address) : VerificationResult :=
  { basename := normalizedName
    normalizedName := normalizedName
    node := node
    owner := some owner
    resolver := resolver
    records := emptyRecords
    addressRecord := none
    summary :=
      { set := 0
        empty := STANDARD_ENS_KEYS.length
        error := 0
        total := STANDARD_ENS_KEYS.length
        percentage := 0 } }

/-- The node `verifyBasenameRecords` derives for a basename (its first
three lines): normalise, take the first dot-separated label, apply
`calculateSubnameNode` under `PARENT_NODE`. -/
def nodeOf (env : Chain) (basename : String) : Bytes :=
  let normalizedName := env.normalize basename
  let label := extractLabel normalizedName
  calculateSubnameNode env.keccak label (PARENT_NODE env.keccak)

/-- The `addressRecord` established by step 3 of `verifyBasenameRecords`:
its own `try` keeps a truthy non-zero `addr`, and its `catch` (or a falsy
or zero address) leaves `addressRecord = null`. -/
def addressRecordOf (env : Chain) (node : Bytes) : Option Address :=
  match env.addrOf node with
  | .ok a => if a ≠ "" ∧ a ≠ zeroAddress then some a else none
  | .error _ => none

/-- The result `verifyBasenameRecords` builds once owner and resolver are
known non-zero: the `addr` step, the text-record loop, and the summary
(counting statuses over the records object, `percentage =
Math.round(set/total*100)` guarded by `total > 0`). -/
def buildFullResult (env : Chain) (basename : String)
    (owner resolverAddress : Address) : VerificationResult :=
  let normalizedName := env.normalize basename
  let node := nodeOf env basename
  let addressRecord := addressRecordOf env node
  let records := buildRecords env node addressRecord
  let setCount := (records.filter (fun r => r.2.status == RecordStatus.set)).length
  let emptyCount := (records.filter (fun r => r.2.status == RecordStatus.empty)).length
  let errorCount := (records.filter (fun r => r.2.status == RecordStatus.error)).length
  let totalCount := records.length
  { basename := basename
    normalizedName := normalizedName
    node := node
    owner := some owner
    resolver := some resolverAddress
    records := records
    addressRecord := addressRecord
    summary :=
      { set := setCount
        empty := emptyCount
        error := errorCount
        total := totalCount
        percentage := if totalCount > 0 then roundPercentage setCount totalCount else 0 } }

/-- Function `verifyBasenameRecords`. The two registry reads live in one
`try`-block: a rejection of either returns `createEmptyResult` (so the
`owner` already read is dropped). Steps 3-5 (the `addr` read, the
text-record loop and the summary) are `buildFullResult`. -/
def verifyBasenameRecords (env : Chain) (basename : String) : VerificationResult :=
  let normalizedName := env.normalize basename
  let node := nodeOf env basename
  match env.ownerOf node with
  | .error _ => createEmptyResult normalizedName node
  | .ok owner =>
    if owner = zeroAddress then createEmptyResult normalizedName node
    else
      match env.resolverOf node with
      | .error _ => createEmptyResult normalizedName node
      | .ok resolverAddress =>
        if resolverAddress = zeroAddress then
          createResultWithOwner normalizedName node owner none
        else
          buildFullResult env basename owner resolverAddress

/-! ## Shared facts about the record lists -/

theorem textRecordKeys_length : textRecordKeys.length = 16 := by decide

theorem buildRecords_length (env : Chain) (node : Bytes) (a : Option Address) :
    (buildRecords env node a).length = 17 := by
  simp [buildRecords, textRecordKeys_length]

theorem lookup_map_append {β : Type} (f : String → β) (k : String) (v : β)
    (keys : List String) (h : ¬ k ∈ keys) :
    ((keys.map (fun x => (x, f x))) ++ [(k, v)]).lookup k = some v := by
  induction keys with
  | nil => simp [List.lookup]
  | cons a as ih =>
    have hk : ¬ k = a := fun e => h (e ▸ List.mem_cons_self a as)
    have has : ¬ k ∈ as := fun e => h (List.mem_cons_of_mem a e)
    have hba : (k == a) = false := beq_eq_false_iff_ne.mpr hk
    simpa [List.lookup, hba] using ih has

theorem lookup_map_of_mem {β : Type} (f : String → β) (k : String)
    (keys : List String) (tail : List (String × β)) (h : k ∈ keys) :
    ((keys.map (fun x => (x, f x))) ++ tail).lookup k = some (f k) := by
  induction keys with
  | nil => cases h
  | cons a as ih =>
    by_cases hk : k = a
    · subst hk; simp [List.lookup]
    · rcases List.mem_cons.mp h with h' | h'
      · exact absurd h' hk
      · have hba : (k == a) = false := beq_eq_false_iff_ne.mpr hk
        simpa [List.lookup, hba] using ih h'

theorem status_filter_partition (l : List (String × RecordResult)) :
    (l.filter (fun r => r.2.status == RecordStatus.set)).length
      + (l.filter (fun r => r.2.status == RecordStatus.empty)).length
      + (l.filter (fun r => r.2.status == RecordStatus.error)).length
      = l.length := by
  induction l with
  | nil => rfl
  | cons hd tl ih =>
    rcases hd with ⟨k, st, v, e⟩
    cases st <;> simp [List.filter_cons] <;> omega

/-! ## C2: registry failure or zero owner gives the all-empty result -/

/-- C2: when the registry owner read rejects, returns the zero address, or
the resolver read rejects, `verifyBasenameRecords` short-circuits to the
all-empty result: the 17 keys in order, every record `empty` with null
value, summary `{set 0, empty 17, error 0, total 17, percentage 0}`, and
owner and resolver both null. -/
theorem verify_registry_failure_all_empty (env : Chain) (basename : String)
    (h : (∃ e, env.ownerOf (nodeOf env basename) = .error e)
       ∨ env.ownerOf (nodeOf env basename) = .ok zeroAddress
       ∨ (∃ e, env.resolverOf (nodeOf env basename) = .error e)) :
    (verifyBasenameRecords env basename).records.map Prod.fst = STANDARD_ENS_KEYS
    ∧ (∀ p ∈ (verifyBasenameRecords env basename).records,
        p.2 = ⟨RecordStatus.empty, none, none⟩)
    ∧ (verifyBasenameRecords env basename).summary = ⟨0, 17, 0, 17, 0⟩
    ∧ (verifyBasenameRecords env basename).owner = none
    ∧ (verifyBasenameRecords env basename).resolver = none := by
  have hemp : verifyBasenameRecords env basename
      = createEmptyResult (env.normalize basename) (nodeOf env basename) := by
    rcases h with ⟨e, he⟩ | hz | ⟨e, he⟩
    · simp [verifyBasenameRecords, he]
    · simp [verifyBasenameRecords, hz]
    · simp only [verifyBasenameRecords]
      cases ho : env.ownerOf (nodeOf env basename) with
      | error e2 => rfl
      | ok o =>
        by_cases hoz : o = zeroAddress
        · simp [hoz]
        · simp [hoz, he]
  rw [hemp]
  refine ⟨?_, ?_, ?_, rfl, rfl⟩
  · show emptyRecords.map Prod.fst = STANDARD_ENS_KEYS
    decide
  · show ∀ p ∈ emptyRecords, p.2 = ⟨RecordStatus.empty, none, none⟩
    decide
  · show (⟨0, STANDARD_ENS_KEYS.length, 0, STANDARD_ENS_KEYS.length, 0⟩ : Summary)
        = ⟨0, 17, 0, 17, 0⟩
    decide

/-- A concrete chain whose registry reports the zero address as owner. -/
def chainOwnerZero : Chain :=
  { keccak := fun _ => List.replicate 32 0
    normalize := fun s => s
    ownerOf := fun _ => .ok zeroAddress
    resolverOf := fun _ => .ok zeroAddress
    addrOf := fun _ => .error "no resolver"
    textOf := fun _ _ => .ok "" }

/-- Witness for C2 on `chainOwnerZero`. -/
theorem verify_registry_failure_all_empty_witness :
    chainOwnerZero.ownerOf (nodeOf chainOwnerZero "alice.basetest.eth")
        = Except.ok zeroAddress
    ∧ ((verifyBasenameRecords chainOwnerZero "alice.basetest.eth").records.map Prod.fst
          = STANDARD_ENS_KEYS
      ∧ (∀ p ∈ (verifyBasenameRecords chainOwnerZero "alice.basetest.eth").records,
          p.2 = ⟨RecordStatus.empty, none, none⟩)
      ∧ (verifyBasenameRecords chainOwnerZero "alice.basetest.eth").summary = ⟨0, 17, 0, 17, 0⟩
      ∧ (verifyBasenameRecords chainOwnerZero "alice.basetest.eth").owner = none
      ∧ (verifyBasenameRecords chainOwnerZero "alice.basetest.eth").resolver = none) :=
  ⟨rfl, verify_registry_failure_all_empty chainOwnerZero "alice.basetest.eth"
    (Or.inr (Or.inl rfl))⟩

/-! ## The fully-resolved branch -/

theorem verify_main (env : Chain) (basename : String) (o r : Address)
    (ho : env.ownerOf (nodeOf env basename) = .ok o) (hoz : o ≠ zeroAddress)
    (hr : env.resolverOf (nodeOf env basename) = .ok r) (hrz : r ≠ zeroAddress) :
    verifyBasenameRecords env basename = buildFullResult env basename o r := by
  simp [verifyBasenameRecords, ho, hoz, hr, hrz]

theorem verify_cases (env : Chain) (basename : String) :
    verifyBasenameRecords env basename
        = createEmptyResult (env.normalize basename) (nodeOf env basename)
    ∨ (∃ o, verifyBasenameRecords env basename
        = createResultWithOwner (env.normalize basename) (nodeOf env basename) o none)
    ∨ (∃ o r, verifyBasenameRecords env basename = buildFullResult env basename o r) := by
  cases ho : env.ownerOf (nodeOf env basename) with
  | error e => exact Or.inl (by simp [verifyBasenameRecords, ho])
  | ok o =>
    by_cases hoz : o = zeroAddress
    · exact Or.inl (by simp [verifyBasenameRecords, ho, hoz])
    · cases hr : env.resolverOf (nodeOf env basename) with
      | error e => exact Or.inl (by simp [verifyBasenameRecords, ho, hoz, hr])
      | ok r =>
        by_cases hrz : r = zeroAddress
        · exact Or.inr (Or.inl ⟨o, by simp [verifyBasenameRecords, ho, hoz, hr, hrz]⟩)
        · exact Or.inr (Or.inr ⟨o, r, verify_main env basename o r ho hoz hr hrz⟩)

theorem buildRecords_filter_error (env : Chain) (node : Bytes) (a : Option Address) :
    ((buildRecords env node a).filter (fun x => x.2.status == RecordStatus.error)).length
      = textRecordKeys.countP
          (fun key => (queryTextRecord env node key).status == RecordStatus.error) := by
  cases a <;>
    simp [buildRecords, List.filter_append, List.filter_map, Function.comp_def,
      List.countP_eq_length_filter]

theorem buildRecords_none_filter_empty (env : Chain) (node : Bytes) :
    ((buildRecords env node none).filter (fun x => x.2.status == RecordStatus.empty)).length
      = textRecordKeys.countP
          (fun key => (queryTextRecord env node key).status == RecordStatus.empty) + 1 := by
  simp [buildRecords, List.filter_append, List.filter_map, Function.comp_def,
    List.countP_eq_length_filter]

/-! ## C3: a failed or zero `addr` lookup is `empty`, never `error` -/

/-- C3: with non-zero owner and resolver, a rejected `addr` call or one
returning a falsy/zero address leaves the `addr` key with status `empty`
(never `error`): it adds one to the summary's empty count, while the error
count is exactly the number of failing text-record reads. -/
theorem addr_failure_is_empty (env : Chain) (basename : String) (o r : Address)
    (ho : env.ownerOf (nodeOf env basename) = .ok o) (hoz : o ≠ zeroAddress)
    (hr : env.resolverOf (nodeOf env basename) = .ok r) (hrz : r ≠ zeroAddress)
    (ha : (∃ e, env.addrOf (nodeOf env basename) = .error e)
        ∨ (∃ a, env.addrOf (nodeOf env basename) = .ok a ∧ (a = "" ∨ a = zeroAddress))) :
    (verifyBasenameRecords env basename).records.lookup ADDRESS_KEY
        = some ⟨RecordStatus.empty, none, none⟩
    ∧ (verifyBasenameRecords env basename).summary.error
        = textRecordKeys.countP
            (fun key => (queryTextRecord env (nodeOf env basename) key).status
              == RecordStatus.error)
    ∧ (verifyBasenameRecords env basename).summary.empty
        = textRecordKeys.countP
            (fun key => (queryTextRecord env (nodeOf env basename) key).status
              == RecordStatus.empty) + 1 := by
  have haddr : addressRecordOf env (nodeOf env basename) = none := by
    rcases ha with ⟨e, he⟩ | ⟨a, hae, hz | hz⟩ <;> simp [addressRecordOf, *]
  rw [verify_main env basename o r ho hoz hr hrz]
  simp only [buildFullResult, haddr]
  refine ⟨?_, ?_, ?_⟩
  · unfold buildRecords
    exact lookup_map_append _ ADDRESS_KEY _ textRecordKeys (by decide)
  · exact buildRecords_filter_error env (nodeOf env basename) none
  · exact buildRecords_none_filter_empty env (nodeOf env basename)

/-- A concrete chain with live owner and resolver whose `addr` read rejects
and whose `email` text read rejects; every other text read returns the
empty string. -/
def chainTextFails : Chain :=
  { keccak := fun _ => List.replicate 32 0
    normalize := fun s => s
    ownerOf := fun _ => .ok "0x1111111111111111111111111111111111111111"
    resolverOf := fun _ => .ok "0x2222222222222222222222222222222222222222"
    addrOf := fun _ => .error "addr read failed"
    textOf := fun _ key => if key = "email" then .error "rpc timeout" else .ok "" }

/-- Witness for C3 on `chainTextFails`. -/
theorem addr_failure_is_empty_witness :
    (chainTextFails.ownerOf (nodeOf chainTextFails "alice")
        = Except.ok "0x1111111111111111111111111111111111111111"
      ∧ "0x1111111111111111111111111111111111111111" ≠ zeroAddress
      ∧ chainTextFails.resolverOf (nodeOf chainTextFails "alice")
        = Except.ok "0x2222222222222222222222222222222222222222"
      ∧ "0x2222222222222222222222222222222222222222" ≠ zeroAddress
      ∧ chainTextFails.addrOf (nodeOf chainTextFails "alice") = Except.error "addr read failed")
    ∧ ((verifyBasenameRecords chainTextFails "alice").records.lookup ADDRESS_KEY
          = some ⟨RecordStatus.empty, none, none⟩
      ∧ (verifyBasenameRecords chainTextFails "alice").summary.error
          = textRecordKeys.countP
              (fun key => (queryTextRecord chainTextFails (nodeOf chainTextFails "alice") key).status
                == RecordStatus.error)
      ∧ (verifyBasenameRecords chainTextFails "alice").summary.empty
          = textRecordKeys.countP
              (fun key => (queryTextRecord chainTextFails (nodeOf chainTextFails "alice") key).status
                == RecordStatus.empty) + 1) :=
  ⟨⟨rfl, by decide, rfl, by decide, rfl⟩,
    addr_failure_is_empty chainTextFails "alice" _ _ rfl (by decide) rfl (by decide)
      (Or.inl ⟨"addr read failed", rfl⟩)⟩

/-! ## C4: the summary is an exact status count -/

/-- C4: for every result of `verifyBasenameRecords`, the summary's `set`,
`empty` and `error` fields are the exact counts of those statuses over the
records object, `total` is 17, the three counts sum to 17, and
`percentage` is the half-up rounding of `set/total*100` (so 10 of 17 gives
59). -/
theorem verify_summary_is_counts (env : Chain) (basename : String) :
    (verifyBasenameRecords env basename).summary.set
        = ((verifyBasenameRecords env basename).records.filter
            (fun x => x.2.status == RecordStatus.set)).length
    ∧ (verifyBasenameRecords env basename).summary.empty
        = ((verifyBasenameRecords env basename).records.filter
            (fun x => x.2.status == RecordStatus.empty)).length
    ∧ (verifyBasenameRecords env basename).summary.error
        = ((verifyBasenameRecords env basename).records.filter
            (fun x => x.2.status == RecordStatus.error)).length
    ∧ (verifyBasenameRecords env basename).summary.total = 17
    ∧ (verifyBasenameRecords env basename).summary.set
        + (verifyBasenameRecords env basename).summary.empty
        + (verifyBasenameRecords env basename).summary.error = 17
    ∧ (verifyBasenameRecords env basename).summary.percentage
        = roundPercentage (verifyBasenameRecords env basename).summary.set 17
    ∧ roundPercentage 10 17 = 59 := by
  rcases verify_cases env basename with h | ⟨o, h⟩ | ⟨o, r, h⟩
  · rw [h]
    exact ⟨rfl, rfl, rfl, rfl, rfl,
      by show (0 : Nat) = roundPercentage 0 17; decide, by decide⟩
  · rw [h]
    exact ⟨rfl, rfl, rfl, rfl, rfl,
      by show (0 : Nat) = roundPercentage 0 17; decide, by decide⟩
  · rw [h]
    have h17 : (buildRecords env (nodeOf env basename)
        (addressRecordOf env (nodeOf env basename))).length = 17 :=
      buildRecords_length _ _ _
    have hsum := status_filter_partition (buildRecords env (nodeOf env basename)
        (addressRecordOf env (nodeOf env basename)))
    rw [h17] at hsum
    have hperc : (buildFullResult env basename o r).summary.percentage
        = if (buildRecords env (nodeOf env basename)
              (addressRecordOf env (nodeOf env basename))).length > 0
          then roundPercentage (buildFullResult env basename o r).summary.set
                 (buildRecords env (nodeOf env basename)
                   (addressRecordOf env (nodeOf env basename))).length
          else 0 := rfl
    rw [h17] at hperc
    exact ⟨rfl, rfl, rfl, h17, hsum, by simpa using hperc, by decide⟩

/-! ## C5: text-record faults are isolated per key -/

/-- C5: once owner and resolver are known non-zero, the aggregation always
returns; a text key whose read rejects with message `e` is reported
`{status error, value null, error e}`, and a text key whose read succeeds
is reported solely from its own value (`set` with the value when it is
non-empty, `empty` otherwise). -/
theorem text_record_fault_isolation (env : Chain) (basename : String) (o r : Address)
    (ho : env.ownerOf (nodeOf env basename) = .ok o) (hoz : o ≠ zeroAddress)
    (hr : env.resolverOf (nodeOf env basename) = .ok r) (hrz : r ≠ zeroAddress)
    (key : String) (hkey : key ∈ textRecordKeys) :
    (∀ e, env.textOf (nodeOf env basename) key = .error e →
        (verifyBasenameRecords env basename).records.lookup key
          = some ⟨RecordStatus.error, none, some e⟩)
    ∧ (∀ v, env.textOf (nodeOf env basename) key = .ok v →
        (verifyBasenameRecords env basename).records.lookup key
          = some (if v ≠ "" then ⟨RecordStatus.set, some v, none⟩
                  else ⟨RecordStatus.empty, none, none⟩)) := by
  rw [verify_main env basename o r ho hoz hr hrz]
  simp only [buildFullResult]
  have hlookup :
      (buildRecords env (nodeOf env basename)
          (addressRecordOf env (nodeOf env basename))).lookup key
        = some (queryTextRecord env (nodeOf env basename) key) := by
    unfold buildRecords
    exact lookup_map_of_mem _ key textRecordKeys _ hkey
  constructor
  · intro e he
    rw [hlookup]
    simp [queryTextRecord, he]
  · intro v hv
    rw [hlookup]
    simp [queryTextRecord, hv]

/-- Witness for C5 on `chainTextFails` at the failing key `email`. -/
theorem text_record_fault_isolation_witness :
    (chainTextFails.ownerOf (nodeOf chainTextFails "alice")
        = Except.ok "0x1111111111111111111111111111111111111111"
      ∧ "0x1111111111111111111111111111111111111111" ≠ zeroAddress
      ∧ chainTextFails.resolverOf (nodeOf chainTextFails "alice")
        = Except.ok "0x2222222222222222222222222222222222222222"
      ∧ "0x2222222222222222222222222222222222222222" ≠ zeroAddress
      ∧ "email" ∈ textRecordKeys)
    ∧ ((∀ e, chainTextFails.textOf (nodeOf chainTextFails "alice") "email" = .error e →
          (verifyBasenameRecords chainTextFails "alice").records.lookup "email"
            = some ⟨RecordStatus.error, none, some e⟩)
      ∧ (∀ v, chainTextFails.textOf (nodeOf chainTextFails "alice") "email" = .ok v →
          (verifyBasenameRecords chainTextFails "alice").records.lookup "email"
            = some (if v ≠ "" then ⟨RecordStatus.set, some v, none⟩
                    else ⟨RecordStatus.empty, none, none⟩))) :=
  ⟨⟨rfl, by decide, rfl, by decide, by decide⟩,
    text_record_fault_isolation chainTextFails "alice" _ _ rfl (by decide) rfl (by decide)
      "email" (by decide)⟩

/-! ## Validation claims -/

theorem jsTrim_empty_of_all_ws (value : String)
    (h : value.data.all isJsWhitespace = true) : jsTrim value = "" := by
  have h1 : value.data.dropWhile isJsWhitespace = [] :=
    List.dropWhile_eq_nil_iff.mpr (fun x hx => List.all_eq_true.mp h x hx)
  simp [jsTrim, jsTrimList, h1]

theorem all_ws_of_jsTrim_empty (value : String) (h : jsTrim value = "") :
    value.data.all isJsWhitespace = true := by
  have h1 : jsTrimList value.data = [] := by
    have h2 := congrArg String.data h
    simpa [jsTrim] using h2
  unfold jsTrimList at h1
  have h2 : (value.data.dropWhile isJsWhitespace).reverse.dropWhile isJsWhitespace = [] :=
    List.reverse_eq_nil_iff.mp h1
  have h3 : ∀ x ∈ value.data.dropWhile isJsWhitespace, isJsWhitespace x := by
    intro x hx
    exact List.dropWhile_eq_nil_iff.mp h2 x (List.mem_reverse.mpr hx)
  refine List.all_eq_true.mpr (fun x hx => ?_)
  rw [← List.takeWhile_append_dropWhile isJsWhitespace value.data] at hx
  rcases List.mem_append.mp hx with hx' | hx'
  · exact List.mem_takeWhile_imp hx'
  · exact h3 x hx'

theorem not_first_guard (v : String) (hv : ¬ v.data.all isJsWhitespace = true) :
    ¬ (v = "" ∨ jsTrim v = "") := by
  rintro (h1 | h1)
  · exact hv (by simp [h1])
  · exact hv (all_ws_of_jsTrim_empty v h1)

/-- C6: an empty or whitespace-only value is valid for every key, with no
error message (the guard returns before any rule lookup, so no key can
reach the throwing path here). -/
theorem validateRecord_empty_always_valid (key value : String)
    (h : value.data.all isJsWhitespace = true) :
    validateRecord key value = .ok ⟨true, none⟩ := by
  have h0 : value = "" ∨ jsTrim value = "" := Or.inr (jsTrim_empty_of_all_ws value h)
  unfold validateRecord
  rw [if_pos h0]

/-- Witness for C6 at whitespace-only and empty values, including a key
that would throw on a non-empty value. -/
theorem validateRecord_empty_always_valid_witness :
    (("  \t ").data.all isJsWhitespace = true
      ∧ validateRecord "email" "  \t " = .ok ⟨true, none⟩)
    ∧ (("").data.all isJsWhitespace = true
      ∧ validateRecord "com.twitter" "" = .ok ⟨true, none⟩)
    ∧ (("").data.all isJsWhitespace = true
      ∧ validateRecord "constructor" "" = .ok ⟨true, none⟩) :=
  ⟨⟨by decide, validateRecord_empty_always_valid "email" "  \t " (by decide)⟩,
   ⟨by decide, validateRecord_empty_always_valid "com.twitter" "" (by decide)⟩,
   ⟨by decide, validateRecord_empty_always_valid "constructor" "" (by decide)⟩⟩

/-- Counterexample to C7 as stated: `constructor` is not free text and has
no explicit pattern rule, yet `validateRecord` does not accept a non-empty
value for it. The property access finds the inherited
`Object.prototype.constructor`, the `!rule` guard does not fire, and
reading `.test` of the undefined `rule.pattern` throws a TypeError. -/
theorem validateRecord_constructor_throws :
    VALIDATION_RULES "constructor" = none
    ∧ FREE_TEXT_FIELDS.contains "constructor" = false
    ∧ validateRecord "constructor" "x"
        = Except.error "TypeError: Cannot read properties of undefined (reading test)"
    ∧ validateRecord "constructor" "x" ≠ Except.ok ⟨true, none⟩ :=
  ⟨rfl, rfl, rfl, fun hc => nomatch hc⟩

/-- C7 (amended): the nine free-text keys accept every value, and so does
any key without an explicit pattern rule that is not a property name
inherited from `Object.prototype`; on those inherited names the lookup
finds a truthy non-rule and `validateRecord` throws instead (see the
counterexample above). -/
theorem validateRecord_free_text_always_valid (key value : String)
    (h : key ∈ FREE_TEXT_FIELDS
       ∨ (VALIDATION_RULES key = none ∧ ¬ key ∈ objectPrototypeKeys)) :
    validateRecord key value = .ok ⟨true, none⟩ := by
  unfold validateRecord
  by_cases h0 : value = "" ∨ jsTrim value = ""
  · rw [if_pos h0]
  · rw [if_neg h0]
    rcases h with h | ⟨hr, hp⟩
    · rw [if_pos (List.elem_iff.mpr h)]
    · have hacc : validationRuleAccess key = .notFound := by
        unfold validationRuleAccess
        rw [hr]
        rw [if_neg (fun hc => hp (List.elem_iff.mp hc))]
      cases hf : FREE_TEXT_FIELDS.contains key
      · rw [if_neg (by simp), hacc]
      · rw [if_pos rfl]

/-- Witness for C7 at a free-text key and at an unknown key with no rule
and no inherited prototype member. -/
theorem validateRecord_free_text_always_valid_witness :
    (("description" ∈ FREE_TEXT_FIELDS
        ∨ (VALIDATION_RULES "description" = none
          ∧ ¬ "description" ∈ objectPrototypeKeys))
      ∧ validateRecord "description" "anything at all ~~ even @@@" = .ok ⟨true, none⟩)
    ∧ (("some.unknown.key" ∈ FREE_TEXT_FIELDS
        ∨ (VALIDATION_RULES "some.unknown.key" = none
          ∧ ¬ "some.unknown.key" ∈ objectPrototypeKeys))
      ∧ validateRecord "some.unknown.key" "whatever" = .ok ⟨true, none⟩) :=
  ⟨⟨Or.inl (by decide),
      validateRecord_free_text_always_valid "description" "anything at all ~~ even @@@"
        (Or.inl (by decide))⟩,
   ⟨Or.inr ⟨rfl, by decide⟩,
      validateRecord_free_text_always_valid "some.unknown.key" "whatever"
        (Or.inr ⟨rfl, by decide⟩)⟩⟩

/-- The E.164 shape exactly as the specification words it: a plus sign
followed by 2 to 15 decimal digits, the first of which is 1-9. -/
def e164Spec (s : String) : Prop :=
  ∃ d ds, s.data = '+' :: d :: ds ∧ '1' ≤ d ∧ d ≤ '9'
    ∧ (d :: ds).all Char.isDigit = true
    ∧ 2 ≤ (d :: ds).length ∧ (d :: ds).length ≤ 15

theorem isDigit_of_one_to_nine {d : Char} (h1 : '1' ≤ d) (h9 : d ≤ '9') :
    d.isDigit = true := by
  simp only [Char.isDigit, Bool.and_eq_true, decide_eq_true_eq, ge_iff_le]
  rw [Char.le_def] at h1 h9
  simp only [UInt32.le_def, BitVec.le_def] at h1 h9 ⊢
  have e1 : (('1' : Char).val).toBitVec.toNat = 49 := rfl
  have e9 : (('9' : Char).val).toBitVec.toNat = 57 := rfl
  have e48 : ((48 : UInt32)).toBitVec.toNat = 48 := rfl
  have e57 : ((57 : UInt32)).toBitVec.toNat = 57 := rfl
  omega

theorem phoneTest_iff_e164Spec (s : String) : phoneTest s = true ↔ e164Spec s := by
  rcases hs : s.data with _ | ⟨c, _ | ⟨d, ds⟩⟩
  · simp [phoneTest, e164Spec, hs]
  · simp [phoneTest, e164Spec, hs]
  · simp only [phoneTest, e164Spec, hs]
    constructor
    · intro h
      simp only [Bool.and_eq_true, beq_iff_eq, decide_eq_true_eq] at h
      obtain ⟨hc, ⟨⟨h1, h9⟩, hds⟩, hlo, hhi⟩ := h
      refine ⟨d, ds, by rw [hc], h1, h9, ?_, ?_, ?_⟩
      · simp [List.all_cons, hds, isDigit_of_one_to_nine h1 h9]
      · simp only [List.length_cons]; omega
      · simp only [List.length_cons]; omega
    · rintro ⟨d', ds', heq, h1, h9, hall, hlo, hhi⟩
      injection heq with hc htl
      injection htl with hd hds
      subst hc; subst hd; subst hds
      simp only [List.all_cons, Bool.and_eq_true] at hall
      simp only [List.length_cons] at hlo hhi
      have hl1 : 1 ≤ ds.length := by omega
      have hl2 : ds.length ≤ 14 := by omega
      simp [h1, h9, hall.2, hl1, hl2]

/-- C8: for a value that is not empty or whitespace-only, the `phone` key
validates (without throwing) exactly the E.164 shape on the trimmed value:
a `+` followed by 2 to 15 decimal digits whose first digit is 1-9. -/
theorem validateRecord_phone_iff_e164 (v : String)
    (hv : ¬ v.data.all isJsWhitespace = true) :
    ∃ out, validateRecord "phone" v = Except.ok out
      ∧ (out.valid = true ↔ e164Spec (jsTrim v)) := by
  have h0 := not_first_guard v hv
  refine ⟨if phoneTest (jsTrim v) then ⟨true, none⟩
      else ⟨false,
        some "Phone must be in E.164 format (e.g., +1234567890). Must start with + and country code."⟩,
    ?_, ?_⟩
  · unfold validateRecord
    rw [if_neg h0, if_neg (by decide)]
    rw [show validationRuleAccess "phone"
        = JsPropAccess.ownRule (phoneTest,
            "Phone must be in E.164 format (e.g., +1234567890). Must start with + and country code.")
      from rfl]
  · by_cases hp : phoneTest (jsTrim v) = true
    · rw [if_pos hp]
      exact ⟨fun _ => (phoneTest_iff_e164Spec (jsTrim v)).mp hp, fun _ => rfl⟩
    · rw [if_neg hp]
      exact ⟨fun hfalse => absurd hfalse Bool.false_ne_true,
        fun he => absurd ((phoneTest_iff_e164Spec (jsTrim v)).mpr he) hp⟩

/-- Witness for C8: `+14155551234` is valid, `4155551234` is not. -/
theorem validateRecord_phone_iff_e164_witness :
    (¬ ("+14155551234").data.all isJsWhitespace = true
      ∧ (∃ out, validateRecord "phone" "+14155551234" = Except.ok out
          ∧ (out.valid = true ↔ e164Spec (jsTrim "+14155551234")))
      ∧ validateRecord "phone" "+14155551234" = Except.ok ⟨true, none⟩)
    ∧ (¬ ("4155551234").data.all isJsWhitespace = true
      ∧ (∃ out, validateRecord "phone" "4155551234" = Except.ok out
          ∧ (out.valid = true ↔ e164Spec (jsTrim "4155551234")))
      ∧ validateRecord "phone" "4155551234"
          = Except.ok ⟨false,
              some "Phone must be in E.164 format (e.g., +1234567890). Must start with + and country code."⟩) :=
  ⟨⟨by decide, validateRecord_phone_iff_e164 "+14155551234" (by decide), rfl⟩,
   ⟨by decide, validateRecord_phone_iff_e164 "4155551234" (by decide), rfl⟩⟩

/-- C9: `getRecordCategory` is total on the 17-key set and assigns exactly
the stated categories: `avatar`/`display`/`keywords` are `profile`,
`email`/`phone`/`location` are `contact`, every key with a `com.`, `org.`
or `io.` prefix is `social`, and everything else (including `description`,
`mail`, `notice`, `url` and `addr`) is `other`. -/
theorem getRecordCategory_spec :
    (getRecordCategory "avatar" = .profile ∧ getRecordCategory "display" = .profile
      ∧ getRecordCategory "keywords" = .profile)
    ∧ (getRecordCategory "email" = .contact ∧ getRecordCategory "phone" = .contact
      ∧ getRecordCategory "location" = .contact)
    ∧ (∀ key : String,
        (strStartsWith key "com." ∨ strStartsWith key "org." ∨ strStartsWith key "io.") →
        getRecordCategory key = .social)
    ∧ (getRecordCategory "description" = .other ∧ getRecordCategory "mail" = .other
      ∧ getRecordCategory "notice" = .other ∧ getRecordCategory "url" = .other
      ∧ getRecordCategory "addr" = .other)
    ∧ STANDARD_ENS_KEYS.all (fun key =>
        (getRecordCategory key == .profile) || (getRecordCategory key == .contact)
          || (getRecordCategory key == .social) || (getRecordCategory key == .other)) = true := by
  refine ⟨⟨by decide, by decide, by decide⟩, ⟨by decide, by decide, by decide⟩, ?_,
    ⟨by decide, by decide, by decide, by decide, by decide⟩, by decide⟩
  intro key h
  have h1 : ¬ (key = "avatar" ∨ key = "display" ∨ key = "keywords") := by
    rintro (rfl | rfl | rfl) <;> revert h <;> decide
  have h2 : ¬ (key = "email" ∨ key = "phone" ∨ key = "location") := by
    rintro (rfl | rfl | rfl) <;> revert h <;> decide
  unfold getRecordCategory
  rw [if_neg h1, if_neg h2, if_pos h]

/-- Witness for C9's prefix rule at `com.twitter`. -/
theorem getRecordCategory_spec_witness :
    (strStartsWith "com.twitter" "com." ∨ strStartsWith "com.twitter" "org."
      ∨ strStartsWith "com.twitter" "io.")
    ∧ getRecordCategory "com.twitter" = .social :=
  ⟨Or.inl (by decide),
    getRecordCategory_spec.2.2.1 "com.twitter" (Or.inl (by decide))⟩

/-- C10: a key with an explicit pattern rule validates the trimmed value:
the outcome is exactly the rule's test applied to `value.trim()`, so a
value with surrounding whitespace is valid exactly when its trimmed form
matches. -/
theorem validateRecord_tests_trimmed_value (key v : String)
    (p : String → Bool) (msg : String)
    (hrule : VALIDATION_RULES key = some (p, msg))
    (hv : ¬ v.data.all isJsWhitespace = true) :
    validateRecord key v
      = Except.ok (if p (jsTrim v) then ⟨true, none⟩ else ⟨false, some msg⟩) := by
  have h0 := not_first_guard v hv
  have hfree : FREE_TEXT_FIELDS.contains key = false := by
    cases hc : FREE_TEXT_FIELDS.contains key
    · rfl
    · have hk : key ∈ FREE_TEXT_FIELDS := List.elem_iff.mp hc
      fin_cases hk <;> simp [VALIDATION_RULES] at hrule
  have hacc : validationRuleAccess key = .ownRule (p, msg) := by
    unfold validationRuleAccess
    rw [hrule]
  unfold validateRecord
  rw [if_neg h0, if_neg (fun hc => Bool.false_ne_true (hfree ▸ hc)), hacc]

/-- Witness for C10: `'  a@b.com  '` is valid for `email` because its
trimmed form matches the email pattern. -/
theorem validateRecord_tests_trimmed_value_witness :
    (VALIDATION_RULES "email"
        = some (emailTest, "Invalid email format. Must be a valid email address.")
      ∧ ¬ ("  a@b.com  ").data.all isJsWhitespace = true)
    ∧ validateRecord "email" "  a@b.com  "
        = Except.ok (if emailTest (jsTrim "  a@b.com  ") then ⟨true, none⟩
            else ⟨false, some "Invalid email format. Must be a valid email address."⟩)
    ∧ validateRecord "email" "  a@b.com  " = Except.ok ⟨true, none⟩ :=
  ⟨⟨rfl, by decide⟩,
    validateRecord_tests_trimmed_value "email" "  a@b.com  " emailTest
      "Invalid email format. Must be a valid email address." rfl (by decide),
    rfl⟩
